import Mathlib

/-!
# Verification of the automaker Agent Orchestration & Protected State subsystem

Shallow embedding of the parts of the repository that the verified claims are
about:

* the protected feature store (`updateFeatureStatus` of the ToolGateway),
* the Codex CLI detector (`detectCodexInstallation`, `checkAuth`),
* the sessions HTTP routes (list / update / archive / unarchive / delete),
* the Codex TOML configuration manager (`parseToml`, `writeConfig`,
  `configureMcpServer`).

File contents: definitions first, then theorems.
-/

namespace Automaker

/-! ## Protected feature store

The ToolGateway's `updateFeatureStatus` implementation lives in
`app/electron/services/feature-loader.js`, which is not part of the source
tree given here (only its documentation, `FEATURE_LIST_PROTECTION.md`, with
code snippets, is).  The definitions in this section are therefore modelled
from the spec (§4.3 steps 1–6 and the §8 testable properties), cross-checked
against the documentation snippets. -/

inductive FeatureStatus where
  | backlog
  | in_progress
  | verified
deriving DecidableEq

structure Feature where
  featureId : String
  status : FeatureStatus
  summary : Option String
deriving DecidableEq

abbrev FeatureList := List Feature

/-- The durable state of the protected store: the primary
`feature_list.json` and the backup `feature_list.backup.json`.
`none` models a file that is absent or does not parse as an ordered sequence
of `Feature`; `some l` models a file that parses to the feature list `l`.
Content equality of this field is the embedding's reading of byte-for-byte
file equality (serialization is injective on parsed lists). -/
structure StoreState where
  primary : Option FeatureList
  backup : Option FeatureList
deriving DecidableEq

inductive UpdateError where
  | CorruptState
  | FeatureNotFound
  | CriticalEmptyWrite
deriving DecidableEq

inductive UpdateResult where
  | ok
  | error (e : UpdateError)
deriving DecidableEq

structure UpdateOutcome where
  state : StoreState
  result : UpdateResult
  warned : Bool
deriving DecidableEq

/-- Modelled from the spec: steps 5–6 of `ToolGateway.updateFeatureStatus`
(the write path of `feature-loader.js`, which is missing from `src/`).
"Immediately before writing, re-validate: the candidate output must be a
non-empty ordered sequence of Feature.  If it would be empty, abort the write
with `CRITICAL: refusing empty write` and leave the on-disk primary file
untouched." -/
def saveFeatures (s : StoreState) (toSave : FeatureList) : StoreState × UpdateResult :=
  if toSave.isEmpty then (s, .error .CriticalEmptyWrite)
  else ({ s with primary := some toSave }, .ok)

/-- Modelled from the spec: step 4 of `ToolGateway.updateFeatureStatus`.
"Apply the single-feature status/summary change by featureId (fails with
`FeatureNotFound` if no matching id exists — the gateway does not silently
create new features)." -/
def applyStatusChange (fl : FeatureList) (fid : String) (st : FeatureStatus)
    (summary : Option String) : Option FeatureList :=
  if fl.any (fun f => f.featureId == fid) then
    some (fl.map (fun f =>
      if f.featureId == fid then
        { f with status := st,
                 summary := match summary with
                            | some sm => some sm
                            | none => f.summary }
      else f))
  else none

/-- Modelled from the spec: `ToolGateway.updateFeatureStatus(projectPath,
featureId, status, summary?)` of `feature-loader.js` (missing from `src/`),
following §4.3 steps 1–6:
1. load the primary list, abort with `CorruptState` if it does not parse;
2. write the backup snapshot with the just-loaded primary content,
   unconditionally, before the primary mutation;
3. if the loaded list is empty while a non-empty backup exists, restore the
   in-memory working set from the (pre-call) backup and surface a warning;
4. apply the single-feature change (`FeatureNotFound` when the id is absent);
5./6. validate the candidate and write it via `saveFeatures`. -/
def updateFeatureStatus (s : StoreState) (fid : String) (st : FeatureStatus)
    (summary : Option String) : UpdateOutcome :=
  match s.primary with
  | none => ⟨s, .error .CorruptState, false⟩
  | some features =>
    let working : FeatureList :=
      if features.isEmpty then
        match s.backup with
        | some b => if b.isEmpty then features else b
        | none => features
      else features
    let warned := features.isEmpty
    let s1 : StoreState := { s with backup := some features }
    match applyStatusChange working fid st summary with
    | none => ⟨s1, .error .FeatureNotFound, warned⟩
    | some cand =>
      let (s2, r) := saveFeatures s1 cand
      ⟨s2, r, warned⟩

/-- One requested call of the `UpdateFeatureStatus` tool. -/
structure UpdateCall where
  fid : String
  st : FeatureStatus
  summary : Option String

/-- Run a sequence of `UpdateFeatureStatus` calls against the same project,
threading the store state (failed calls leave the state as they found it). -/
def runCalls (s : StoreState) : List UpdateCall → StoreState
  | [] => s
  | c :: cs => runCalls (updateFeatureStatus s c.fid c.st c.summary).state cs

/-- Number of features held by the primary file (`0` when absent/unparsable). -/
def primaryLen (s : StoreState) : Nat := (s.primary.getD []).length

end Automaker

namespace Automaker

/-! ## Codex CLI detector

Embedding of `CodexCliDetector` (`detectCodexInstallation`, `checkAuth`).
The environment the detector probes — command invocations, the filesystem,
`process.env` — is reified as a `CodexEnv` value; each external command is
modelled by its result, `.error ()` for an invocation that threw (non-zero
exit, missing binary, or — for the bounded login-status call — a timeout) and
`.ok out` for one that produced output `out`. -/

/-- Helpers mirroring the JavaScript string primitives the sources use,
defined by structural recursion on the character list so that concrete
inputs evaluate inside proofs. -/
def charListPrefix? : List Char → List Char → Option (List Char)
  | [], l => some l
  | _ :: _, [] => none
  | c :: cs, d :: ds => if c == d then charListPrefix? cs ds else none

/-- Split a character list on every occurrence of the (non-empty) separator;
`fuel` bounds the recursion and is always instantiated with the list length
plus one, which is enough for every input. -/
def splitCharsAux (sep : List Char) : Nat → List Char → List Char → List (List Char)
  | 0, l, cur => [cur.reverse ++ l]
  | fuel + 1, l, cur =>
    match l with
    | [] => [cur.reverse]
    | c :: cs =>
      match charListPrefix? sep l with
      | some rest => cur.reverse :: splitCharsAux sep fuel rest []
      | none => splitCharsAux sep fuel cs (c :: cur)

/-- JavaScript `String.prototype.split` with a non-empty string separator. -/
def jsSplit (s sep : String) : List String :=
  (splitCharsAux sep.toList (s.toList.length + 1) s.toList []).map List.asString

/-- JavaScript `String.prototype.trim` (ASCII whitespace). -/
def jsTrim (s : String) : String :=
  (((s.toList.dropWhile Char.isWhitespace).reverse.dropWhile
      Char.isWhitespace).reverse).asString

def jsStartsWith (s pre : String) : Bool :=
  (charListPrefix? pre.toList s.toList).isSome

def jsEndsWith (s suf : String) : Bool :=
  (charListPrefix? suf.toList.reverse s.toList.reverse).isSome

/-- JavaScript `String.prototype.replace` with a global pattern (split on
the pattern, join with the replacement). -/
def jsReplaceAll (s pat rep : String) : String :=
  String.intercalate rep (jsSplit s pat)

def digitsToNat (l : List Char) : Nat :=
  l.foldl (fun acc c => acc * 10 + (c.toNat - 48)) 0

/-- JavaScript `parseInt(v, 10)` restricted to `^-?\\d+$` inputs (the only
ones the parser feeds it); exact, since the verified configs stay far below
2^53. -/
def jsParseIntLit (s : String) : Int :=
  if jsStartsWith s "-" then -(digitsToNat (s.toList.drop 1) : Int)
  else (digitsToNat s.toList : Int)

/-- Substring test (JavaScript `String.prototype.includes`, for a non-empty
pattern). -/
def containsSub (s pat : String) : Bool := decide (1 < (jsSplit s pat).length)

/-- JavaScript truthiness of an optional string: absent and `""` are falsy. -/
def truthy : Option String → Bool
  | none => false
  | some s => s != ""

/-- The `auth.token` object of `~/.codex/auth.json`: each field records
whether the corresponding property is present and JavaScript-truthy. -/
structure TokenObj where
  Id_token : Bool
  access_token : Bool
  refresh_token : Bool
  id_token : Bool
deriving DecidableEq

/-- A successfully parsed `~/.codex/auth.json`, as far as `checkAuth`
inspects it: `token` is `some` when `auth.token` is a truthy object, the
other fields record present-and-truthy properties. -/
structure AuthJson where
  token : Option TokenObj
  access_token : Bool
  refresh_token : Bool
  Id_token : Bool
  id_token : Bool
  api_key : Bool
  openai_api_key : Bool
  apiKey : Bool
deriving DecidableEq

/-- One snapshot of the world the detector probes. -/
structure CodexEnv where
  whichCodex : Except Unit String        -- `which codex 2>/dev/null`
  npmList : Except Unit String           -- `npm list -g @openai/codex --depth=0`
  npmBin : Except Unit String            -- `npm bin -g`
  platform : String                      -- `process.platform`
  brewList : Except Unit String          -- `brew list --formula 2>/dev/null`
  brewPrefixOut : Except Unit String        -- `brew --prefix codex 2>/dev/null`
  whereCodex : Except Unit String        -- `where codex 2>nul`
  homedir : String                       -- `os.homedir()`
  existsSync : String → Bool             -- `fs.existsSync` on install paths
  getVersion : String → Except Unit String   -- `"<path>" --version 2>/dev/null`
  loginStatusCmd : Nat → String → Except Unit String
    -- `"<path>" login status 2>&1`, first argument the `execSync` timeout (ms)
  openaiApiKey : Option String           -- `process.env.OPENAI_API_KEY`
  authFile : Option (Except Unit AuthJson)
    -- `~/.codex/auth.json`: `none` = absent, `some (.error ())` = exists but
    -- reading/`JSON.parse` throws, `some (.ok j)` = parses to `j`

/-- Shape of `InstallationStatus` as produced by the detector (absent JS object fields
are `none`). -/
structure InstallationStatus where
  installed : Bool
  path : Option String := none
  version : Option String := none
  method : Option String := none
  hasApiKey : Option Bool := none
  error : Option String := none
deriving DecidableEq

/-- The result shape of `checkAuth`. -/
structure AuthStatus where
  authenticated : Bool
  method : String
  hasAuthFile : Option Bool := none
  hasEnvKey : Option Bool := none
  authPath : Option String := none
  error : Option String := none
deriving DecidableEq

/-- Embeds `CodexCliDetector.getCodexVersion`. -/
def getCodexVersion (env : CodexEnv) (codexPath : String) : Option String :=
  match env.getVersion codexPath with
  | .ok out => if jsTrim out != "" then some (jsTrim out) else none
  | .error _ => none

/-- Method 1 of `detectCodexInstallation`: `which codex`; failure is swallowed. -/
def tryWhich (env : CodexEnv) : Option InstallationStatus :=
  match env.whichCodex with
  | .ok out =>
    if jsTrim out != "" then
      some { installed := true, path := some (jsTrim out),
             version := getCodexVersion env (jsTrim out), method := some "cli" }
    else none
  | .error _ => none

/-- Method 2: npm global installation (`npm bin -g` throwing inside the block
is swallowed by the same catch). -/
def tryNpm (env : CodexEnv) : Option InstallationStatus :=
  match env.npmList with
  | .ok npmListOutput =>
    if npmListOutput != "" && containsSub npmListOutput "@openai/codex" then
      match env.npmBin with
      | .ok binOut =>
        some { installed := true, path := some (jsTrim binOut ++ "/codex"),
               version := getCodexVersion env (jsTrim binOut ++ "/codex"),
               method := some "npm" }
      | .error _ => none
    else none
  | .error _ => none

/-- Method 3: Homebrew, only on macOS. -/
def tryBrew (env : CodexEnv) : Option InstallationStatus :=
  if env.platform == "darwin" then
    match env.brewList with
    | .ok brewListOut =>
      if containsSub brewListOut "codex" then
        match env.brewPrefixOut with
        | .ok pre =>
          some { installed := true, path := some (jsTrim pre ++ "/bin/codex"),
                 version := getCodexVersion env (jsTrim pre ++ "/bin/codex"),
                 method := some "brew" }
        | .error _ => none
      else none
    | .error _ => none
  else none

/-- Method 4: `where codex`, only on Windows (first line of the output). -/
def tryWhere (env : CodexEnv) : Option InstallationStatus :=
  if env.platform == "win32" then
    match env.whereCodex with
    | .ok out =>
      if (jsSplit (jsTrim out) "\n").headD "" != "" then
        some { installed := true, path := some ((jsSplit (jsTrim out) "\n").headD ""),
               version := getCodexVersion env ((jsSplit (jsTrim out) "\n").headD ""),
               method := some "cli" }
      else none
    | .error _ => none
  else none

/-- Method 5: the well-known fixed install paths, in source order. -/
def commonCodexPaths (env : CodexEnv) : List String :=
  [env.homedir ++ "/.local/bin/codex",
   env.homedir ++ "/.npm-global/bin/codex",
   "/usr/local/bin/codex",
   "/opt/homebrew/bin/codex"]

def tryCommonPaths (env : CodexEnv) : Option InstallationStatus :=
  match (commonCodexPaths env).find? (fun p => env.existsSync p) with
  | some checkPath =>
    some { installed := true, path := some checkPath,
           version := getCodexVersion env checkPath, method := some "cli" }
  | none => none

/-- Embeds `CodexCliDetector.detectCodexInstallation`: methods 1–5 in order, then the
`OPENAI_API_KEY` fallback (method 6), then the bare negative status. -/
def detectCodexInstallation (env : CodexEnv) : InstallationStatus :=
  match tryWhich env with
  | some r => r
  | none =>
    match tryNpm env with
    | some r => r
    | none =>
      match tryBrew env with
      | some r => r
      | none =>
        match tryWhere env with
        | some r => r
        | none =>
          match tryCommonPaths env with
          | some r => r
          | none =>
            if truthy env.openaiApiKey then
              { installed := false, hasApiKey := some true }
            else
              { installed := false }

/-- Embeds `CodexCliDetector.getAuthPath` (`path.join(os.homedir(), ".codex",
"auth.json")`). -/
def getAuthPath (env : CodexEnv) : String :=
  env.homedir ++ "/.codex/auth.json"

/-- First block of `checkAuth`: live verification through
`"<path>" login status` bounded by a 5000 ms timeout; any failure (including
the timeout) yields `none` and the caller falls through. -/
def tryCliVerified (env : CodexEnv) : Option AuthStatus :=
  if (detectCodexInstallation env).installed then
    match (detectCodexInstallation env).path with
    | some p =>
      if p != "" then
        match env.loginStatusCmd 5000 p with
        | .ok raw =>
          if jsTrim raw != "" &&
              (containsSub (jsTrim raw) "Logged in"
                || containsSub (jsTrim raw) "Authenticated") then
            some { authenticated := true, method := "cli_verified",
                   hasAuthFile := some env.authFile.isSome,
                   hasEnvKey := some (truthy env.openaiApiKey),
                   authPath := some (getAuthPath env) }
          else none
        | .error _ => none
      else none
    | none => none
  else none

/-- The `auth.token` check of `checkAuth` (token object structure). -/
def tokenObjHit (auth : AuthJson) : Bool :=
  match auth.token with
  | some t => t.Id_token || t.access_token || t.refresh_token || t.id_token
  | none => false

/-- The root-level token check of `checkAuth`. -/
def rootTokensHit (auth : AuthJson) : Bool :=
  auth.access_token || auth.refresh_token || auth.Id_token || auth.id_token

/-- The API-key field check of `checkAuth`. -/
def apiKeyFieldsHit (auth : AuthJson) : Bool :=
  auth.api_key || auth.openai_api_key || auth.apiKey

/-- Tail of `checkAuth` after the auth-file block falls through: the
environment-variable check, then the final negative return. -/
def checkAuthEnvFallback (env : CodexEnv) : AuthStatus :=
  if truthy env.openaiApiKey then
    { authenticated := true, method := "env",
      hasAuthFile := some env.authFile.isSome, hasEnvKey := some true,
      authPath := some (getAuthPath env) }
  else
    { authenticated := false, method := "none",
      hasAuthFile := some env.authFile.isSome, hasEnvKey := some false,
      authPath := some (getAuthPath env) }

/-- Embeds `CodexCliDetector.checkAuth`: CLI verification, then auth-file
inspection, then the environment-variable fallback.  Note that when the auth
file exists but fails to read or parse, the catch returns a negative status
immediately (with `hasAuthFile: false`), without consulting the env key. -/
def checkAuth (env : CodexEnv) : AuthStatus :=
  match tryCliVerified env with
  | some r => r
  | none =>
    match env.authFile with
    | some (.error _) =>
      { authenticated := false, method := "none", hasAuthFile := some false,
        hasEnvKey := some (truthy env.openaiApiKey),
        authPath := some (getAuthPath env) }
    | some (.ok auth) =>
      if tokenObjHit auth then
        { authenticated := true, method := "cli_tokens", hasAuthFile := some true,
          hasEnvKey := some (truthy env.openaiApiKey),
          authPath := some (getAuthPath env) }
      else if rootTokensHit auth then
        { authenticated := true, method := "cli_tokens", hasAuthFile := some true,
          hasEnvKey := some (truthy env.openaiApiKey),
          authPath := some (getAuthPath env) }
      else if apiKeyFieldsHit auth then
        { authenticated := true, method := "auth_file", hasAuthFile := some true,
          hasEnvKey := some (truthy env.openaiApiKey),
          authPath := some (getAuthPath env) }
      else checkAuthEnvFallback env
    | none => checkAuthEnvFallback env

/-- Some installation probe (methods 1–5) succeeds. -/
def probeHit (env : CodexEnv) : Prop :=
  (tryWhich env).isSome = true ∨ (tryNpm env).isSome = true
    ∨ (tryBrew env).isSome = true ∨ (tryWhere env).isSome = true
    ∨ (tryCommonPaths env).isSome = true

/-- The parsed auth file carries at least one known token/key field. -/
def authJsonRecognized (auth : AuthJson) : Bool :=
  tokenObjHit auth || rootTokensHit auth || apiKeyFieldsHit auth

/-- The auth file does not force a verdict: it is absent, or it parses but
carries none of the known token/key fields. -/
def authFileNeutral (env : CodexEnv) : Prop :=
  env.authFile = none
    ∨ ∃ j, env.authFile = some (.ok j) ∧ authJsonRecognized j = false

/-- Environment in which every command invocation throws, the auth file
exists but does not parse, and `OPENAI_API_KEY` is set. -/
def envAuthFileCorrupt : CodexEnv :=
  { whichCodex := .error (), npmList := .error (), npmBin := .error (),
    platform := "linux", brewList := .error (), brewPrefixOut := .error (),
    whereCodex := .error (), homedir := "/home/automaker",
    existsSync := fun _ => false, getVersion := fun _ => .error (),
    loginStatusCmd := fun _ _ => .error (), openaiApiKey := some "sk-test",
    authFile := some (.error ()) }

/-- Environment in which every installation probe fails and `OPENAI_API_KEY`
is set (no auth file at all). -/
def envApiKeyOnly : CodexEnv :=
  { envAuthFileCorrupt with authFile := none }

/-- Environment in which every probe fails or throws and no credential of any
kind exists. -/
def envAllFail : CodexEnv :=
  { envAuthFileCorrupt with openaiApiKey := none }

end Automaker

namespace Automaker

/-! ## Session store and HTTP session routes

Embedding of `apps/server/src/routes/sessions.ts`.  The `AgentService`
persistence the routes call into (`agent-service.js`) is not under `src/`,
so its operations are modelled from the spec (§4.4); the route-level
computations (derived `messageCount`/`preview`, the 404 mapping) are taken
from the route source. -/

structure Message where
  role : String
  content : String
  timestamp : Nat
deriving DecidableEq

structure Session where
  id : String
  name : String
  projectPath : Option String
  workingDirectory : String
  model : Option String
  createdAt : Nat
  updatedAt : Nat
  archived : Bool
  tags : List String
deriving DecidableEq

/-- The persisted state behind `AgentService`: the session records and, per
session id, the persisted message history returned by `loadSession`. -/
structure AgentStore where
  sessions : List Session
  messages : String → List Message

def insertDesc (x : Session) : List Session → List Session
  | [] => [x]
  | y :: ys =>
    if y.updatedAt ≤ x.updatedAt then x :: y :: ys else y :: insertDesc x ys

/-- Modelled from the spec: the ordering of `AgentService.listSessions`
(its implementation is not under `src/`): "`list` returns sessions ordered by
recency of `updatedAt`, descending" (§4.4).  Insertion sort by descending
`updatedAt`. -/
def sortByUpdatedAtDesc : List Session → List Session
  | [] => []
  | x :: xs => insertDesc x (sortByUpdatedAtDesc xs)

/-- Modelled from the spec: `AgentService.listSessions(includeArchived)` —
all sessions (or only the unarchived ones), ordered by `updatedAt`
descending. -/
def listSessions (st : AgentStore) (includeArchived : Bool) : List Session :=
  sortByUpdatedAtDesc
    (if includeArchived then st.sessions
     else st.sessions.filter (fun s => !s.archived))

/-- The item shape the list route returns (frontend `SessionListItem`). -/
structure SessionListItem where
  id : String
  name : String
  projectPath : String
  workingDirectory : String
  createdAt : Nat
  updatedAt : Nat
  isArchived : Bool
  tags : List String
  messageCount : Nat
  preview : String
deriving DecidableEq

/-- Computes `lastMessage?.content?.slice(0, 100) || ""` of the list route: the first
100 characters of the last message's content, `""` when there are no
messages. -/
def previewOf (msgs : List Message) : String :=
  match msgs.getLast? with
  | some m => m.content.take 100
  | none => ""

/-- The transform the `GET /` sessions route applies to each listed session:
`messageCount` and `preview` are computed at list time from the loaded
messages (`s.projectPath || s.workingDirectory` with JS truthiness). -/
def toListItem (st : AgentStore) (s : Session) : SessionListItem :=
  { id := s.id, name := s.name,
    projectPath :=
      match s.projectPath with
      | some p => if p != "" then p else s.workingDirectory
      | none => s.workingDirectory,
    workingDirectory := s.workingDirectory,
    createdAt := s.createdAt, updatedAt := s.updatedAt,
    isArchived := s.archived, tags := s.tags,
    messageCount := (st.messages s.id).length,
    preview := previewOf (st.messages s.id) }

/-- Route `GET /` (list sessions). -/
def listSessionsRoute (st : AgentStore) (includeArchived : Bool) :
    List SessionListItem :=
  (listSessions st includeArchived).map (toListItem st)

/-- Response shape of the mutating session routes. -/
structure RouteResponse where
  status : Nat
  success : Bool
  error : Option String
deriving DecidableEq

/-- Response `res.status(404).json(...)` with error `"Session not found"`. -/
def notFoundResponse : RouteResponse := ⟨404, false, some "Session not found"⟩

/-- Response `res.json(...)` with success true (status 200). -/
def okResponse : RouteResponse := ⟨200, true, none⟩

/-- Modelled from the spec: `AgentService.updateSession` — mutating
operations "fail with `NotFound` rather than silently creating a session"
(§4.4); for an unknown id the store is untouched and `none` is returned. -/
def updateSession (st : AgentStore) (sessionId : String) (name : Option String)
    (tags : Option (List String)) (model : Option String) :
    AgentStore × Option Session :=
  match st.sessions.find? (fun s => s.id == sessionId) with
  | none => (st, none)
  | some s =>
    let s1 : Session :=
      { s with name := name.getD s.name, tags := tags.getD s.tags,
               model := match model with | some m => some m | none => s.model }
    ({ st with
        sessions := st.sessions.map (fun t => if t.id == sessionId then s1 else t) },
      some s1)

/-- Modelled from the spec: `AgentService.archiveSession` — `false` for an
unknown id, never creating a session. -/
def archiveSession (st : AgentStore) (sessionId : String) : AgentStore × Bool :=
  match st.sessions.find? (fun s => s.id == sessionId) with
  | none => (st, false)
  | some _ =>
    ({ st with
        sessions := st.sessions.map
          (fun t => if t.id == sessionId then { t with archived := true } else t) },
      true)

/-- Modelled from the spec: `AgentService.unarchiveSession`. -/
def unarchiveSession (st : AgentStore) (sessionId : String) : AgentStore × Bool :=
  match st.sessions.find? (fun s => s.id == sessionId) with
  | none => (st, false)
  | some _ =>
    ({ st with
        sessions := st.sessions.map
          (fun t => if t.id == sessionId then { t with archived := false } else t) },
      true)

/-- Modelled from the spec: `AgentService.deleteSession` — `false` for an
unknown id. -/
def deleteSession (st : AgentStore) (sessionId : String) : AgentStore × Bool :=
  match st.sessions.find? (fun s => s.id == sessionId) with
  | none => (st, false)
  | some _ =>
    ({ st with sessions := st.sessions.filter (fun s => s.id != sessionId) }, true)

/-- Route `PUT /:sessionId` (update session): 404 `"Session not found"` when
the service reports no such session. -/
def putSessionRoute (st : AgentStore) (sessionId : String) (name : Option String)
    (tags : Option (List String)) (model : Option String) :
    AgentStore × RouteResponse :=
  match updateSession st sessionId name tags model with
  | (st1, none) => (st1, notFoundResponse)
  | (st1, some _) => (st1, okResponse)

/-- Route `POST /:sessionId/archive`. -/
def archiveSessionRoute (st : AgentStore) (sessionId : String) :
    AgentStore × RouteResponse :=
  match archiveSession st sessionId with
  | (st1, false) => (st1, notFoundResponse)
  | (st1, true) => (st1, okResponse)

/-- Route `POST /:sessionId/unarchive`. -/
def unarchiveSessionRoute (st : AgentStore) (sessionId : String) :
    AgentStore × RouteResponse :=
  match unarchiveSession st sessionId with
  | (st1, false) => (st1, notFoundResponse)
  | (st1, true) => (st1, okResponse)

/-- Route `DELETE /:sessionId`. -/
def deleteSessionRoute (st : AgentStore) (sessionId : String) :
    AgentStore × RouteResponse :=
  match deleteSession st sessionId with
  | (st1, false) => (st1, notFoundResponse)
  | (st1, true) => (st1, okResponse)

/-- A small concrete store used by the witnesses. -/
def demoSessionA : Session :=
  { id := "a", name := "first", projectPath := none,
    workingDirectory := "/proj", model := none, createdAt := 1,
    updatedAt := 5, archived := false, tags := [] }

def demoSessionB : Session :=
  { id := "b", name := "second", projectPath := some "/proj/b",
    workingDirectory := "/proj", model := none, createdAt := 2,
    updatedAt := 9, archived := false, tags := [] }

def demoStore : AgentStore :=
  { sessions := [demoSessionA, demoSessionB],
    messages := fun sessionId =>
      if sessionId == "b" then [⟨"user", "hello world", 3⟩] else [] }

/-- The empty store used by the C9 witness. -/
def emptyStore : AgentStore := { sessions := [], messages := fun _ => [] }

end Automaker

namespace Automaker

/-! ## Codex TOML configuration manager

Embedding of `CodexConfigManager` (`parseToml`, `writeConfig`,
`configureMcpServer`).  TOML scalar values are modelled by `TomlPrim`;
numbers are exact integers (the JS doubles are exact at the magnitudes the
configs use), and a value matching the float regex is kept as its literal
text since no float occurs in the configurations under verification. -/

inductive TomlPrim where
  | str (s : String)
  | boolean (b : Bool)
  | int (n : Int)
  | floatRaw (s : String)
deriving DecidableEq

/-- A value of the dynamic config object `parseToml` builds: a scalar, an
array (never produced by `parseToml`, used to state what an inverse parser
would have to return), or a nested table.  JS object insertion order is kept
by using association lists. -/
inductive TEntry where
  | prim (p : TomlPrim)
  | arr (xs : List TomlPrim)
  | table (kvs : List (String × TEntry))

/-- JS object property lookup. -/
def assocGet {α : Type} (l : List (String × α)) (k : String) : Option α :=
  (l.find? (fun p => p.1 == k)).map (fun p => p.2)

/-- JS object property assignment: update in place when the key exists
(preserving its position), append otherwise. -/
def assocSet {α : Type} (l : List (String × α)) (k : String) (v : α) :
    List (String × α) :=
  if l.any (fun p => p.1 == k) then
    l.map (fun p => if p.1 == k then (k, v) else p)
  else l ++ [(k, v)]

/-- JS falsiness of a scalar (`""`, `false`, `0` and numeric-zero floats are
falsy). -/
def jsFalsyPrim : TomlPrim → Bool
  | .str s => s == ""
  | .boolean b => !b
  | .int n => n == 0
  | .floatRaw s => s.all (fun c => c == '0' || c == '.' || c == '-')

/-- JS falsiness of a config entry (objects and arrays are always truthy). -/
def entryFalsy : TEntry → Bool
  | .prim p => jsFalsyPrim p
  | .arr _ => false
  | .table _ => false

/-- The section-header regex `^\[([^\]]+)\]$` of `parseToml`. -/
def sectionName? (trimmed : String) : Option String :=
  if jsStartsWith trimmed "[" && jsEndsWith trimmed "]" then
    if (trimmed.drop 1).dropRight 1 != ""
        && !(containsSub ((trimmed.drop 1).dropRight 1) "]") then
      some ((trimmed.drop 1).dropRight 1)
    else none
  else none

/-- The key-value regex `^([^=]+)=(.+)$` of `parseToml`: key = everything
before the first `=` (non-empty, no `=`), value = everything after it
(non-empty). -/
def kvSplit? (trimmed : String) : Option (String × String) :=
  match jsSplit trimmed "=" with
  | [] => none
  | [_] => none
  | k :: rest =>
    if k != "" && String.intercalate "=" rest != "" then
      some (k, String.intercalate "=" rest)
    else none

/-- Matches `^-?\d+$`. -/
def isIntLit (s : String) : Bool :=
  (if jsStartsWith s "-" then s.drop 1 else s) != ""
    && ((if jsStartsWith s "-" then s.drop 1 else s).toList.all Char.isDigit)

/-- Matches `^-?\d+\.\d+$`. -/
def isFloatLit (s : String) : Bool :=
  match jsSplit (if jsStartsWith s "-" then s.drop 1 else s) "." with
  | [a, b] => a != "" && b != "" && a.toList.all Char.isDigit && b.toList.all Char.isDigit
  | _ => false

/-- The value conversion of `parseToml`: strip a single pair of surrounding
double or single quotes, then coerce `"true"`/`"false"`, integer literals and
float literals (in that order); anything else stays a string. -/
def parseTomlValue (raw : String) : TomlPrim :=
  let v :=
    if (jsStartsWith raw "\"" && jsEndsWith raw "\"")
        || (jsStartsWith raw "\x27" && jsEndsWith raw "\x27") then
      (raw.drop 1).dropRight 1
    else raw
  if v == "true" then .boolean true
  else if v == "false" then .boolean false
  else if isIntLit v then .int (jsParseIntLit v)
  else if isFloatLit v then .floatRaw v
  else .str v

/-- The parser state: the config object built so far plus the current
`[section]` / `[section.subsection]` context. -/
structure ParseState where
  config : List (String × TEntry)
  currentSection : Option String
  currentSubsection : Option String

/-- Performs `if (!config[k]) config[k] = ...` (fresh empty table) on a table. -/
def ensureTable (cfg : List (String × TEntry)) (k : String) :
    List (String × TEntry) :=
  match assocGet cfg k with
  | none => assocSet cfg k (.table [])
  | some e => if entryFalsy e then assocSet cfg k (.table []) else cfg

/-- One line of `parseToml`.  Section headers with one or two dot-separated
parts set the context and create the tables; headers with three or more
parts match the regex but fall through both branches, leaving the context
unchanged (this is why `[mcp_servers.<name>.env]` is skipped).  Key-value
lines are assigned into the current context; the corner cases in which the
JS would assign onto a primitive (a silent no-op) or throw (indexing a
missing table) leave the config unchanged here, and are not exercised by the
verified inputs. -/
def parseTomlStep (st : ParseState) (line : String) : ParseState :=
  if jsTrim line == "" || jsStartsWith (jsTrim line) "#" then st
  else
    match sectionName? (jsTrim line) with
    | some name =>
      match jsSplit name "." with
      | [s] => ⟨ensureTable st.config s, some s, none⟩
      | [s, sub] =>
        let cfg1 := ensureTable st.config s
        let cfg2 :=
          match assocGet cfg1 s with
          | some (.table t) => assocSet cfg1 s (.table (ensureTable t sub))
          | _ => cfg1
        ⟨cfg2, some s, some sub⟩
      | _ => st
    | none =>
      match kvSplit? (jsTrim line) with
      | none => st
      | some (k0, v0) =>
        let key := jsTrim k0
        let value := parseTomlValue (jsTrim v0)
        if (match st.currentSubsection with
            | some sub => sub != ""
            | none => false)
            && (match st.currentSection with
                | some sec => sec != ""
                | none => false) then
          let sec := st.currentSection.getD ""
          let sub := st.currentSubsection.getD ""
          let cfg :=
            match assocGet st.config sec with
            | some (.table t) =>
              let t1 := ensureTable t sub
              match assocGet t1 sub with
              | some (.table t2) =>
                assocSet st.config sec (.table (assocSet t1 sub (.table (assocSet t2 key (.prim value)))))
              | _ => assocSet st.config sec (.table t1)
            | _ => st.config
          ⟨cfg, st.currentSection, st.currentSubsection⟩
        else if (match st.currentSection with
                 | some sec => sec != ""
                 | none => false) then
          let sec := st.currentSection.getD ""
          let cfg :=
            match assocGet (ensureTable st.config sec) sec with
            | some (.table t) =>
              assocSet (ensureTable st.config sec) sec (.table (assocSet t key (.prim value)))
            | _ => ensureTable st.config sec
          ⟨cfg, st.currentSection, st.currentSubsection⟩
        else
          ⟨assocSet st.config key (.prim value), st.currentSection, st.currentSubsection⟩

/-- Embeds `CodexConfigManager.parseToml`. -/
def parseToml (content : String) : List (String × TEntry) :=
  ((jsSplit content "\n").foldl parseTomlStep ⟨[], none, none⟩).config

/-- The `mcp_servers.<name>` entry shape `writeConfig` serializes (absent JS
object fields are `none`). -/
structure McpServerConfig where
  command : Option String := none
  args : Option (List String) := none
  env : Option (List (String × String)) := none
  startup_timeout_sec : Option Int := none
  tool_timeout_sec : Option Int := none
  enabled_tools : Option (List String) := none
deriving DecidableEq

/-- The `CodexConfig` shape `writeConfig` consumes: other top-level keys
(scalars only: `writeConfig` drops non-`mcp_servers` object values), the
`experimental_use_rmcp_client` flag, and the `mcp_servers` record. -/
structure CodexConfig where
  topLevel : List (String × TomlPrim) := []
  experimental_use_rmcp_client : Bool := false
  mcp_servers : List (String × McpServerConfig) := []
deriving DecidableEq

/-- Embeds `CodexConfigManager.escapeTomlString`. -/
def escapeTomlString (s : String) : String :=
  jsReplaceAll (jsReplaceAll (jsReplaceAll (jsReplaceAll (jsReplaceAll s
    "\\" "\\\\") "\"" "\\\"") "\n" "\\n") "\r" "\\r") "\t" "\\t"

/-- Embeds `CodexConfigManager.formatValue` (for top-level scalars). -/
def formatValue : TomlPrim → String
  | .str s => "\"" ++ jsReplaceAll (jsReplaceAll s "\\" "\\\\") "\"" "\\\"" ++ "\""
  | .boolean b => toString b
  | .int n => toString n
  | .floatRaw s => s

/-- Embeds `CodexConfigManager.writeConfig`: serializes the config to TOML text —
top-level scalars, the experimental flag, then each `[mcp_servers.<name>]`
section (command, args, timeouts, enabled_tools) followed by its
`[mcp_servers.<name>.env]` subsection. -/
def writeConfigStr (cfg : CodexConfig) : String := Id.run do
  let mut content := ""
  for kv in cfg.topLevel do
    content := content ++ kv.1 ++ " = " ++ formatValue kv.2 ++ "\n"
  if cfg.experimental_use_rmcp_client then
    if content != "" && !(jsEndsWith content "\n\n") then
      content := content ++ "\n"
    content := content ++ "experimental_use_rmcp_client = true\n"
  if !cfg.mcp_servers.isEmpty then
    if content != "" && !(jsEndsWith content "\n\n") then
      content := content ++ "\n"
    for sv in cfg.mcp_servers do
      content := content ++ "\n[mcp_servers." ++ sv.1 ++ "]\n"
      match sv.2.command with
      | some c =>
        if c != "" then
          content := content ++ "command = \"" ++ escapeTomlString c ++ "\"\n"
      | none => pure ()
      match sv.2.args with
      | some as =>
        content := content ++ "args = ["
          ++ String.intercalate ", "
              (as.map (fun a => "\"" ++ escapeTomlString a ++ "\"")) ++ "]\n"
      | none => pure ()
      match sv.2.startup_timeout_sec with
      | some n => content := content ++ "startup_timeout_sec = " ++ toString n ++ "\n"
      | none => pure ()
      match sv.2.tool_timeout_sec with
      | some n => content := content ++ "tool_timeout_sec = " ++ toString n ++ "\n"
      | none => pure ()
      match sv.2.enabled_tools with
      | some ts =>
        content := content ++ "enabled_tools = ["
          ++ String.intercalate ", "
              (ts.map (fun t => "\"" ++ escapeTomlString t ++ "\"")) ++ "]\n"
      | none => pure ()
      match sv.2.env with
      | some e =>
        if !e.isEmpty then
          content := content ++ "\n[mcp_servers." ++ sv.1 ++ ".env]\n"
          for ekv in e do
            content := content ++ ekv.1 ++ " = \"" ++ escapeTomlString ekv.2 ++ "\"\n"
      | none => pure ()
  return content

/-- The `automaker-tools` entry `configureMcpServer` installs. -/
def automakerToolsEntry (projectPath mcpServerScriptPath : String) :
    McpServerConfig :=
  { command := some "node", args := some [mcpServerScriptPath],
    env := some [("AUTOMAKER_PROJECT_PATH", projectPath)],
    startup_timeout_sec := some 10, tool_timeout_sec := some 60,
    enabled_tools := some ["UpdateFeatureStatus"] }

/-- Embeds `CodexConfigManager.configureMcpServer`, acting on an already-read
config: sets `mcp_servers["automaker-tools"]` and forces the
`experimental_use_rmcp_client` flag. -/
def configureMcpServer (cfg : CodexConfig)
    (projectPath mcpServerScriptPath : String) : CodexConfig :=
  { cfg with
      mcp_servers := assocSet cfg.mcp_servers "automaker-tools"
        (automakerToolsEntry projectPath mcpServerScriptPath),
      experimental_use_rmcp_client := true }

/-- The parsed-table image an inverse of `writeConfig` would have to
produce for one `McpServerConfig` (this definition follows the claim's
words: arrays stay arrays and `env` stays a nested table; field order as
written by `writeConfig`). -/
def mcpServerAsTable (sc : McpServerConfig) : TEntry :=
  .table
    ((match sc.command with
      | some c => [("command", TEntry.prim (.str c))]
      | none => [])
      ++ (match sc.args with
          | some as => [("args", TEntry.arr (as.map TomlPrim.str))]
          | none => [])
      ++ (match sc.startup_timeout_sec with
          | some n => [("startup_timeout_sec", TEntry.prim (.int n))]
          | none => [])
      ++ (match sc.tool_timeout_sec with
          | some n => [("tool_timeout_sec", TEntry.prim (.int n))]
          | none => [])
      ++ (match sc.enabled_tools with
          | some ts => [("enabled_tools", TEntry.arr (ts.map TomlPrim.str))]
          | none => [])
      ++ (match sc.env with
          | some e => [("env", TEntry.table (e.map (fun kv => (kv.1, TEntry.prim (.str kv.2)))))]
          | none => []))

/-- The `mcp_servers` record as the claimed round-trip would return it. -/
def mcpServersAsTable (l : List (String × McpServerConfig)) : TEntry :=
  .table (l.map (fun kv => (kv.1, mcpServerAsTable kv.2)))

/-- The config `configureMcpServer` produces from an empty config file, at a
concrete project path and MCP server script path. -/
def cfgAutomaker : CodexConfig :=
  configureMcpServer {} "/work/proj" "/app/mcp-server.js"

end Automaker

namespace Automaker

theorem applyStatusChange_length {fl cand : FeatureList} {fid : String} {st : FeatureStatus}
    {sm : Option String} (h : applyStatusChange fl fid st sm = some cand) :
    cand.length = fl.length := by
  unfold applyStatusChange at h
  split at h
  · simp only [Option.some.injEq] at h
    subst h
    simp
  · simp at h

theorem primaryLen_step (t : StoreState) (fid : String) (st : FeatureStatus)
    (sm : Option String) :
    primaryLen t ≤ primaryLen (updateFeatureStatus t fid st sm).state := by
  unfold updateFeatureStatus
  cases hp : t.primary with
  | none => exact le_refl _
  | some features =>
    simp only
    split
    · simp [primaryLen, hp]
    · rename_i cand hc
      unfold saveFeatures
      split
      · simp [primaryLen, hp]
      · rename_i hne
        have hlen := applyStatusChange_length hc
        simp only [primaryLen, hp, Option.getD_some]
        rw [hlen]
        by_cases he : features.isEmpty
        · have h0 : features = [] := List.isEmpty_iff.mp he
          simp [h0]
        · simp [he]

end Automaker

namespace Automaker

theorem runCalls_append (s : StoreState) (pre suf : List UpdateCall) :
    runCalls s (pre ++ suf) = runCalls (runCalls s pre) suf := by
  induction pre generalizing s with
  | nil => rfl
  | cons c cs ih => simp [runCalls, ih]

theorem primaryLen_runCalls (t : StoreState) (suf : List UpdateCall) :
    primaryLen t ≤ primaryLen (runCalls t suf) := by
  induction suf generalizing t with
  | nil => exact le_refl _
  | cons c cs ih =>
    exact le_trans (primaryLen_step t c.fid c.st c.summary) (ih _)

/-- C4: over any sequence of `UpdateFeatureStatus` calls against the same
project, the primary feature-list length never decreases: each call writes a
list at least as long as the one it loaded (a single accepted update only
rewrites one feature in place), so the length after the final call is at
least the length observed at any prior point — in particular at any prior
successful write. -/
theorem featureList_monotone_non_loss :
    (∀ (t : StoreState) (c : UpdateCall),
        primaryLen t ≤ primaryLen (updateFeatureStatus t c.fid c.st c.summary).state)
    ∧ ∀ (s : StoreState) (pre suf : List UpdateCall),
        primaryLen (runCalls s pre) ≤ primaryLen (runCalls s (pre ++ suf)) := by
  refine ⟨fun t c => primaryLen_step t c.fid c.st c.summary, fun s pre suf => ?_⟩
  rw [runCalls_append]
  exact primaryLen_runCalls _ _

/-- C1: the pre-write validation refuses the empty candidate list — saving
`[]` returns the `CRITICAL` empty-write error and leaves the primary file
content exactly as it was — and `updateFeatureStatus` never changes the
primary file except by writing a non-empty validated list. -/
theorem empty_write_refused (s : StoreState) (fid : String) (st : FeatureStatus)
    (sm : Option String) :
    (saveFeatures s []).2 = .error .CriticalEmptyWrite
      ∧ (saveFeatures s []).1.primary = s.primary
      ∧ ((updateFeatureStatus s fid st sm).state.primary = s.primary
          ∨ ∃ l, l ≠ [] ∧ (updateFeatureStatus s fid st sm).state.primary = some l) := by
  refine ⟨rfl, rfl, ?_⟩
  unfold updateFeatureStatus
  cases hp : s.primary with
  | none => exact Or.inl hp
  | some features =>
    simp only
    split
    · exact Or.inl rfl
    · rename_i cand hc
      unfold saveFeatures
      split
      · exact Or.inl rfl
      · rename_i hne
        exact Or.inr ⟨cand, by simpa [List.isEmpty_iff] using hne, rfl⟩

/-- C2: corruption auto-heal — with the primary file holding `[]` and the
backup holding `[{featureId: "f1", status: backlog}]`, the call
`UpdateFeatureStatus("f1", "in_progress", "x")` restores the working set from
the backup and then applies the change: the primary ends up holding `f1`
with status `in_progress`, the call succeeds, and the warning flag is
surfaced. -/
theorem corruption_auto_heal :
    updateFeatureStatus ⟨some [], some [⟨"f1", .backlog, none⟩]⟩ "f1" .in_progress (some "x") =
      ⟨⟨some [⟨"f1", .in_progress, some "x"⟩], some []⟩, .ok, true⟩ := by
  decide

/-- C3: backup freshness — on every accepted update the backup snapshot is
written with the just-loaded primary content before the primary mutation, so
after any accepted call the backup equals the primary content exactly as it
existed immediately before that call. -/
theorem backup_freshness (s : StoreState) (fid : String) (st : FeatureStatus)
    (sm : Option String) (h : (updateFeatureStatus s fid st sm).result = .ok) :
    (updateFeatureStatus s fid st sm).state.backup = s.primary := by
  unfold updateFeatureStatus at h ⊢
  cases hp : s.primary with
  | none => simp [hp] at h
  | some features =>
    simp only [hp]
    split
    · rfl
    · unfold saveFeatures
      split
      · rfl
      · rfl

theorem backup_freshness_witness :
    (updateFeatureStatus ⟨some [⟨"a", .backlog, none⟩], none⟩ "a" .verified none).result = .ok
      ∧ (updateFeatureStatus ⟨some [⟨"a", .backlog, none⟩], none⟩ "a" .verified none).state.backup
          = some [⟨"a", .backlog, none⟩] :=
  ⟨by decide, backup_freshness ⟨some [⟨"a", .backlog, none⟩], none⟩ "a" .verified none (by decide)⟩

end Automaker

namespace Automaker

theorem tryWhich_installed {env : CodexEnv} {r : InstallationStatus}
    (h : tryWhich env = some r) : r.installed = true := by
  unfold tryWhich at h
  repeat split at h
  all_goals first
  | exact Option.noConfusion h
  | (simp only [Option.some.injEq] at h; subst h; rfl)

theorem tryNpm_installed {env : CodexEnv} {r : InstallationStatus}
    (h : tryNpm env = some r) : r.installed = true := by
  unfold tryNpm at h
  repeat split at h
  all_goals first
  | exact Option.noConfusion h
  | (simp only [Option.some.injEq] at h; subst h; rfl)

theorem tryBrew_installed {env : CodexEnv} {r : InstallationStatus}
    (h : tryBrew env = some r) : r.installed = true := by
  unfold tryBrew at h
  repeat split at h
  all_goals first
  | exact Option.noConfusion h
  | (simp only [Option.some.injEq] at h; subst h; rfl)

theorem tryWhere_installed {env : CodexEnv} {r : InstallationStatus}
    (h : tryWhere env = some r) : r.installed = true := by
  unfold tryWhere at h
  repeat split at h
  all_goals first
  | exact Option.noConfusion h
  | (simp only [Option.some.injEq] at h; subst h; rfl)

theorem tryCommonPaths_installed {env : CodexEnv} {r : InstallationStatus}
    (h : tryCommonPaths env = some r) : r.installed = true := by
  unfold tryCommonPaths at h
  repeat split at h
  all_goals first
  | exact Option.noConfusion h
  | (simp only [Option.some.injEq] at h; subst h; rfl)

theorem tryCliVerified_authenticated {env : CodexEnv} {r : AuthStatus}
    (h : tryCliVerified env = some r) : r.authenticated = true := by
  unfold tryCliVerified at h
  repeat split at h
  all_goals first
  | exact Option.noConfusion h
  | (simp only [Option.some.injEq] at h; subst h; rfl)

end Automaker

namespace Automaker

theorem detect_eq_cascade (env : CodexEnv) :
    detectCodexInstallation env =
      (((((tryWhich env).or (tryNpm env)).or (tryBrew env)).or (tryWhere env)).or
          (tryCommonPaths env)).getD
        (if truthy env.openaiApiKey then
          { installed := false, hasApiKey := some true }
         else { installed := false }) := by
  unfold detectCodexInstallation
  rcases tryWhich env with _ | r
  · rcases tryNpm env with _ | r
    · rcases tryBrew env with _ | r
      · rcases tryWhere env with _ | r
        · rcases tryCommonPaths env with _ | r <;> rfl
        · rfl
      · rfl
    · rfl
  · rfl

theorem detect_installed_iff (env : CodexEnv) :
    (detectCodexInstallation env).installed = true ↔ probeHit env := by
  unfold detectCodexInstallation
  rcases h1 : tryWhich env with _ | r
  · rcases h2 : tryNpm env with _ | r
    · rcases h3 : tryBrew env with _ | r
      · rcases h4 : tryWhere env with _ | r
        · rcases h5 : tryCommonPaths env with _ | r
          · have hnp : ¬ probeHit env := by
              intro hp
              rcases hp with hp | hp | hp | hp | hp <;>
                simp [h1, h2, h3, h4, h5] at hp
            apply iff_of_false ?_ hnp
            by_cases hk : truthy env.openaiApiKey <;> simp [hk]
          · exact iff_of_true (tryCommonPaths_installed h5)
              (Or.inr (Or.inr (Or.inr (Or.inr (by simp [h5])))))
        · exact iff_of_true (tryWhere_installed h4)
            (Or.inr (Or.inr (Or.inr (Or.inl (by simp [h4])))))
      · exact iff_of_true (tryBrew_installed h3)
          (Or.inr (Or.inr (Or.inl (by simp [h3]))))
    · exact iff_of_true (tryNpm_installed h2) (Or.inr (Or.inl (by simp [h2])))
  · exact iff_of_true (tryWhich_installed h1) (Or.inl (by simp [h1]))

end Automaker

namespace Automaker

theorem detect_fallback_iff (env : CodexEnv) :
    (detectCodexInstallation env = { installed := false, hasApiKey := some true }
        ↔ ¬ probeHit env ∧ truthy env.openaiApiKey = true)
    ∧ (detectCodexInstallation env = { installed := false }
        ↔ ¬ probeHit env ∧ truthy env.openaiApiKey = false) := by
  by_cases hp : probeHit env
  · have hins := (detect_installed_iff env).mpr hp
    constructor
    · exact iff_of_false (fun he => by rw [he] at hins; exact Bool.noConfusion hins)
        (fun hc => hc.1 hp)
    · exact iff_of_false (fun he => by rw [he] at hins; exact Bool.noConfusion hins)
        (fun hc => hc.1 hp)
  · have h1 : tryWhich env = none := by
      cases h : tryWhich env with
      | none => rfl
      | some r => exact absurd (Or.inl (by simp [h])) hp
    have h2 : tryNpm env = none := by
      cases h : tryNpm env with
      | none => rfl
      | some r => exact absurd (Or.inr (Or.inl (by simp [h]))) hp
    have h3 : tryBrew env = none := by
      cases h : tryBrew env with
      | none => rfl
      | some r => exact absurd (Or.inr (Or.inr (Or.inl (by simp [h])))) hp
    have h4 : tryWhere env = none := by
      cases h : tryWhere env with
      | none => rfl
      | some r => exact absurd (Or.inr (Or.inr (Or.inr (Or.inl (by simp [h]))))) hp
    have h5 : tryCommonPaths env = none := by
      cases h : tryCommonPaths env with
      | none => rfl
      | some r => exact absurd (Or.inr (Or.inr (Or.inr (Or.inr (by simp [h]))))) hp
    rw [detect_eq_cascade, h1, h2, h3, h4, h5]
    by_cases hk : truthy env.openaiApiKey
    · rw [if_pos hk]
      exact ⟨iff_of_true rfl ⟨hp, hk⟩,
        iff_of_false (fun he => by simp at he)
          (fun hc => by rw [hc.2] at hk; exact Bool.noConfusion hk)⟩
    · rw [if_neg hk]
      exact ⟨iff_of_false (fun he => by simp at he)
          (fun hc => hk hc.2),
        iff_of_true rfl ⟨hp, by simpa using hk⟩⟩

end Automaker

namespace Automaker

theorem checkAuth_signal_disjunction_aux (env : CodexEnv) :
    (checkAuth env).authenticated = true ↔
      ((tryCliVerified env).isSome = true
        ∨ (∃ j, env.authFile = some (.ok j) ∧ authJsonRecognized j = true)
        ∨ (truthy env.openaiApiKey = true ∧ authFileNeutral env)) := by
  unfold checkAuth
  rcases hc : tryCliVerified env with _ | r
  · rcases haf : env.authFile with _ | ex
    · dsimp only
      unfold checkAuthEnvFallback
      by_cases hk : truthy env.openaiApiKey
      · rw [if_pos hk]
        exact iff_of_true rfl (Or.inr (Or.inr ⟨hk, Or.inl haf⟩))
      · rw [if_neg hk]
        refine iff_of_false (by simp) ?_
        rintro (h | ⟨j, hj, _⟩ | ⟨hk2, _⟩)
        · simp at h
        · simp at hj
        · exact hk hk2
    · cases ex with
      | error e =>
        dsimp only
        refine iff_of_false (by simp) ?_
        rintro (h | ⟨j, hj, _⟩ | ⟨hk2, hn⟩)
        · simp at h
        · simp at hj
        · rcases hn with hn | ⟨j, hj, _⟩
          · rw [haf] at hn; simp at hn
          · rw [haf] at hj; simp at hj
      | ok auth =>
        dsimp only
        by_cases t1 : tokenObjHit auth
        · rw [if_pos t1]
          exact iff_of_true rfl
            (Or.inr (Or.inl ⟨auth, rfl, by simp [authJsonRecognized, t1]⟩))
        · rw [if_neg t1]
          by_cases t2 : rootTokensHit auth
          · rw [if_pos t2]
            exact iff_of_true rfl
              (Or.inr (Or.inl ⟨auth, rfl, by simp [authJsonRecognized, t2]⟩))
          · rw [if_neg t2]
            by_cases t3 : apiKeyFieldsHit auth
            · rw [if_pos t3]
              exact iff_of_true rfl
                (Or.inr (Or.inl ⟨auth, rfl, by simp [authJsonRecognized, t3]⟩))
            · rw [if_neg t3]
              unfold checkAuthEnvFallback
              by_cases hk : truthy env.openaiApiKey
              · rw [if_pos hk]
                refine iff_of_true rfl
                  (Or.inr (Or.inr ⟨hk, Or.inr ⟨auth, haf, ?_⟩⟩))
                simp [authJsonRecognized, t1, t2, t3]
              · rw [if_neg hk]
                refine iff_of_false (by simp) ?_
                rintro (h | ⟨j, hj, hrec⟩ | ⟨hk2, _⟩)
                · simp at h
                · simp only [Option.some.injEq, Except.ok.injEq] at hj
                  subst hj
                  simp [authJsonRecognized, t1, t2, t3] at hrec
                · exact hk hk2
  · exact iff_of_true (tryCliVerified_authenticated hc) (Or.inl (by simp [hc]))

end Automaker

namespace Automaker

/-- C5 counterexample: with every CLI probe failing, the auth file present but
unparseable, and `OPENAI_API_KEY` set, `checkAuth` reports
`authenticated: false` — the env-key signal is positive yet the flag is not
true, refuting "authenticated is true whenever at least one of these signals
resolves positively (in particular, a present OPENAI_API_KEY yields
authenticated:true even when the auth file is absent or unparseable)". -/
theorem checkAuth_parse_failure_blocks_env_key :
    (checkAuth envAuthFileCorrupt).authenticated = false
      ∧ envAuthFileCorrupt.authFile = some (.error ())
      ∧ truthy envAuthFileCorrupt.openaiApiKey = true :=
  ⟨rfl, rfl, rfl⟩

/-- C5 (amended): `checkAuth` tries, in order, the 5000 ms-bounded CLI
`login status` verification (failure or timeout is advisory and falls
through), then the on-disk auth file, then the env key; `authenticated` is
true exactly when the CLI verification succeeds, or the auth file parses with
a known token/key field, or the env key is present while the auth file is
absent or parses without recognized fields.  When the auth file exists but
fails to read or parse, `checkAuth` returns `authenticated: false` without
consulting the env key. -/
theorem checkAuth_signal_disjunction (env : CodexEnv) :
    (checkAuth env).authenticated = true ↔
      ((tryCliVerified env).isSome = true
        ∨ (∃ j, env.authFile = some (.ok j) ∧ authJsonRecognized j = true)
        ∨ (truthy env.openaiApiKey = true ∧ authFileNeutral env)) :=
  checkAuth_signal_disjunction_aux env

/-- C6 counterexample: with every installation probe failing and
`OPENAI_API_KEY` set, `detectCodexInstallation` still returns a status with
`installed: false` (carrying `hasApiKey: true`), refuting "the returned
status has installed:false only when every probe fails and no credential
fallback (OPENAI_API_KEY) exists". -/
theorem detect_installed_false_despite_api_key :
    (detectCodexInstallation envApiKeyOnly).installed = false
      ∧ truthy envApiKeyOnly.openaiApiKey = true :=
  ⟨rfl, rfl⟩

/-- C6 (amended): `detectCodexInstallation` evaluates the probes in source
order — PATH lookup, npm global install, Homebrew (macOS), `where` (Windows),
fixed install paths — first success winning, and otherwise falls back on the
`OPENAI_API_KEY` check; `installed` is true exactly when some probe succeeds,
the `installed:false, hasApiKey:true` status occurs exactly when every probe
fails but the key exists, and the bare `installed:false` status occurs
exactly when every probe fails and no key exists. -/
theorem detect_probe_order_and_fallback (env : CodexEnv) :
    detectCodexInstallation env =
      (((((tryWhich env).or (tryNpm env)).or (tryBrew env)).or (tryWhere env)).or
          (tryCommonPaths env)).getD
        (if truthy env.openaiApiKey then
          { installed := false, hasApiKey := some true }
         else { installed := false })
    ∧ ((detectCodexInstallation env).installed = true ↔ probeHit env)
    ∧ (detectCodexInstallation env = { installed := false, hasApiKey := some true }
        ↔ ¬ probeHit env ∧ truthy env.openaiApiKey = true)
    ∧ (detectCodexInstallation env = { installed := false }
        ↔ ¬ probeHit env ∧ truthy env.openaiApiKey = false) :=
  ⟨detect_eq_cascade env, detect_installed_iff env,
    (detect_fallback_iff env).1, (detect_fallback_iff env).2⟩

/-- C7: for every environment in which all probe commands throw, the
filesystem shows no install path, the auth file read throws and no env key is
set, `detectCodexInstallation` and `checkAuth` return plain negative status
values (no exception escapes the registry boundary; the failure is encoded in
`installed:false` / `authenticated:false` fields). -/
theorem codex_probes_degrade_to_status (env : CodexEnv)
    (h1 : env.whichCodex = .error ()) (h2 : env.npmList = .error ())
    (h3 : env.brewList = .error ()) (h4 : env.whereCodex = .error ())
    (h5 : ∀ p, env.existsSync p = false)
    (h6 : env.authFile = some (.error ())) (h7 : env.openaiApiKey = none) :
    detectCodexInstallation env = { installed := false }
      ∧ checkAuth env =
          { authenticated := false, method := "none", hasAuthFile := some false,
            hasEnvKey := some false, authPath := some (getAuthPath env) } := by
  have hw : tryWhich env = none := by unfold tryWhich; rw [h1]
  have hn : tryNpm env = none := by unfold tryNpm; rw [h2]
  have hb : tryBrew env = none := by
    unfold tryBrew
    split
    · rw [h3]
    · rfl
  have hwh : tryWhere env = none := by
    unfold tryWhere
    split
    · rw [h4]
    · rfl
  have hcp : tryCommonPaths env = none := by
    unfold tryCommonPaths
    simp [commonCodexPaths, h5]
  have hd : detectCodexInstallation env = { installed := false } := by
    unfold detectCodexInstallation
    rw [hw, hn, hb, hwh, hcp, h7]
    rfl
  refine ⟨hd, ?_⟩
  have hcli : tryCliVerified env = none := by
    unfold tryCliVerified
    rw [hd]
    rfl
  unfold checkAuth
  rw [hcli, h6, h7]
  rfl

end Automaker

namespace Automaker

/-- Witness for C7 at a concrete all-failing environment. -/
theorem codex_probes_degrade_to_status_witness :
    detectCodexInstallation envAllFail = { installed := false }
      ∧ checkAuth envAllFail =
          { authenticated := false, method := "none", hasAuthFile := some false,
            hasEnvKey := some false, authPath := some (getAuthPath envAllFail) } :=
  codex_probes_degrade_to_status envAllFail rfl rfl rfl rfl (fun _ => rfl) rfl rfl

end Automaker

namespace Automaker

theorem mem_insertDesc {x z : Session} {l : List Session}
    (h : z ∈ insertDesc x l) : z = x ∨ z ∈ l := by
  induction l with
  | nil =>
    unfold insertDesc at h
    exact Or.inl (List.mem_singleton.mp h)
  | cons y ys ih =>
    unfold insertDesc at h
    split at h
    · rcases List.mem_cons.mp h with h | h
      · exact Or.inl h
      · exact Or.inr h
    · rcases List.mem_cons.mp h with h | h
      · exact Or.inr (List.mem_cons.mpr (Or.inl h))
      · rcases ih h with h | h
        · exact Or.inl h
        · exact Or.inr (List.mem_cons.mpr (Or.inr h))

theorem pairwise_insertDesc {x : Session} {l : List Session}
    (h : l.Pairwise (fun a b => b.updatedAt ≤ a.updatedAt)) :
    (insertDesc x l).Pairwise (fun a b => b.updatedAt ≤ a.updatedAt) := by
  induction l with
  | nil => simp [insertDesc]
  | cons y ys ih =>
    cases h with
    | cons hy hys =>
      unfold insertDesc
      split
      · rename_i hle
        refine List.Pairwise.cons (fun z hz => ?_) (List.Pairwise.cons hy hys)
        rcases List.mem_cons.mp hz with rfl | hz
        · exact hle
        · exact le_trans (hy z hz) hle
      · rename_i hgt
        refine List.Pairwise.cons (fun z hz => ?_) (ih hys)
        rcases mem_insertDesc hz with rfl | hz
        · omega
        · exact hy z hz

theorem pairwise_sortByUpdatedAtDesc (l : List Session) :
    (sortByUpdatedAtDesc l).Pairwise (fun a b => b.updatedAt ≤ a.updatedAt) := by
  induction l with
  | nil => simp [sortByUpdatedAtDesc]
  | cons x xs ih => exact pairwise_insertDesc ih

/-- C8: the session list route returns the sessions in descending
`updatedAt` order, and every returned item's `messageCount` is the number of
persisted messages of that session and its `preview` the first 100
characters of the last message's content (`""` when there are none) — both
derived at list time from the store. -/
theorem listSessionsRoute_sorted_and_derived (st : AgentStore)
    (includeArchived : Bool) :
    (listSessionsRoute st includeArchived).Pairwise
        (fun a b => b.updatedAt ≤ a.updatedAt)
      ∧ ∀ it ∈ listSessionsRoute st includeArchived,
          it.messageCount = (st.messages it.id).length
            ∧ it.preview = previewOf (st.messages it.id) := by
  constructor
  · exact List.Pairwise.map (toListItem st) (fun a b hab => hab)
      (pairwise_sortByUpdatedAtDesc _)
  · intro it hit
    rcases List.mem_map.mp hit with ⟨s, _, rfl⟩
    exact ⟨rfl, rfl⟩

/-- Witness for C8 at a concrete two-session store. -/
theorem listSessionsRoute_sorted_and_derived_witness :
    (listSessionsRoute demoStore true).Pairwise
        (fun a b => b.updatedAt ≤ a.updatedAt)
      ∧ ∃ it, it ∈ listSessionsRoute demoStore true
          ∧ it.messageCount = (demoStore.messages it.id).length
          ∧ it.preview = previewOf (demoStore.messages it.id) := by
  have hmem : toListItem demoStore demoSessionB ∈ listSessionsRoute demoStore true := by
    rw [show listSessionsRoute demoStore true =
        [toListItem demoStore demoSessionB, toListItem demoStore demoSessionA] from rfl]
    exact List.mem_cons_self _ _
  exact ⟨(listSessionsRoute_sorted_and_derived demoStore true).1,
    ⟨toListItem demoStore demoSessionB, hmem,
      (listSessionsRoute_sorted_and_derived demoStore true).2 _ hmem⟩⟩

/-- C9: for a session id with no matching stored session, each mutating
session route — update, archive, unarchive, delete — answers 404 with error
`"Session not found"` and leaves the store unchanged (no session is
created). -/
theorem unknown_session_not_found (st : AgentStore) (sessionId : String)
    (name : Option String) (tags : Option (List String)) (model : Option String)
    (h : st.sessions.find? (fun s => s.id == sessionId) = none) :
    putSessionRoute st sessionId name tags model = (st, notFoundResponse)
      ∧ archiveSessionRoute st sessionId = (st, notFoundResponse)
      ∧ unarchiveSessionRoute st sessionId = (st, notFoundResponse)
      ∧ deleteSessionRoute st sessionId = (st, notFoundResponse) := by
  refine ⟨?_, ?_, ?_, ?_⟩
  · unfold putSessionRoute updateSession
    rw [h]
  · unfold archiveSessionRoute archiveSession
    rw [h]
  · unfold unarchiveSessionRoute unarchiveSession
    rw [h]
  · unfold deleteSessionRoute deleteSession
    rw [h]

/-- Witness for C9 at the empty store. -/
theorem unknown_session_not_found_witness :
    putSessionRoute emptyStore "missing" none none none = (emptyStore, notFoundResponse)
      ∧ archiveSessionRoute emptyStore "missing" = (emptyStore, notFoundResponse)
      ∧ unarchiveSessionRoute emptyStore "missing" = (emptyStore, notFoundResponse)
      ∧ deleteSessionRoute emptyStore "missing" = (emptyStore, notFoundResponse) :=
  unknown_session_not_found emptyStore "missing" none none none rfl

end Automaker

namespace Automaker

set_option maxRecDepth 100000

/-- C10: the TOML round-trip fails on the very configuration
`configureMcpServer` writes.  `parseToml (writeConfig cfg)` returns
`args`/`enabled_tools` as raw bracket strings (the parser has no array
production) and folds the `env` keys into the server table (the
`[mcp_servers.<name>.env]` header has three dot-separated parts, which the
parser skips without changing the current section), so the parsed
`mcp_servers` differs from the written one. -/
theorem parseToml_not_inverse_of_writeConfig :
    assocGet (parseToml (writeConfigStr cfgAutomaker)) "mcp_servers" =
      some (.table [("automaker-tools", .table
        [("command", .prim (.str "node")),
         ("args", .prim (.str "[\"/app/mcp-server.js\"]")),
         ("startup_timeout_sec", .prim (.int 10)),
         ("tool_timeout_sec", .prim (.int 60)),
         ("enabled_tools", .prim (.str "[\"UpdateFeatureStatus\"]")),
         ("AUTOMAKER_PROJECT_PATH", .prim (.str "/work/proj"))])])
    ∧ assocGet (parseToml (writeConfigStr cfgAutomaker)) "mcp_servers" ≠
        some (mcpServersAsTable cfgAutomaker.mcp_servers) := by
  refine ⟨rfl, ?_⟩
  intro h
  rw [show mcpServersAsTable cfgAutomaker.mcp_servers =
      .table [("automaker-tools", .table
        [("command", .prim (.str "node")),
         ("args", .arr [.str "/app/mcp-server.js"]),
         ("startup_timeout_sec", .prim (.int 10)),
         ("tool_timeout_sec", .prim (.int 60)),
         ("enabled_tools", .arr [.str "UpdateFeatureStatus"]),
         ("env", .table [("AUTOMAKER_PROJECT_PATH", .prim (.str "/work/proj"))])])]
      from rfl] at h
  rw [show assocGet (parseToml (writeConfigStr cfgAutomaker)) "mcp_servers" =
      some (.table [("automaker-tools", .table
        [("command", .prim (.str "node")),
         ("args", .prim (.str "[\"/app/mcp-server.js\"]")),
         ("startup_timeout_sec", .prim (.int 10)),
         ("tool_timeout_sec", .prim (.int 60)),
         ("enabled_tools", .prim (.str "[\"UpdateFeatureStatus\"]")),
         ("AUTOMAKER_PROJECT_PATH", .prim (.str "/work/proj"))])])
      from rfl] at h
  simp at h

end Automaker
